import Mathlib

/-!
Shallow embedding of the publish-side pipeline of the pubsub client.

The `Publisher` type and its operations `publish`, `stop`, `initBundler`,
`publishMessageBundle`, `resumePublish` and `PublishSettings.shouldCompress`
are translated from the source file of the repository.  The collaborating
components that the source file only calls — the publish scheduler's
pause/resume/add state, the flow controller, and the protobuf size
computation — are not part of the given sources, so they are modelled from
the specification; each such definition carries a doc comment starting
with `Modelled from the spec:`.

Machine integers of the source (Go `int`) are modelled as `Int`; sizes
computed from lengths are `Nat` cast into `Int` where the source mixes
them.  The RPC collaborator is a parameter
`rpc : PublishRequest → Except PubError (List String)` returning the
per-message server-assigned identifiers on success.  Fallible operations
return `Option PubError`; the write-once result handle of a message is a
`ResultState` value produced by the pipeline.
-/

namespace PubsubSpec

/-- Errors surfaced by the publish pipeline.  `topicStopped`,
`orderingNotEnabled` and `publishingPaused` are the distinguished errors of
the source (`ErrTopicStopped`, `errTopicOrderingNotEnabled`,
`ErrPublishingPaused`); `flowErr`, `addErr` and `rpcErr` stand for opaque
errors produced by the flow controller, the scheduler's other failure modes
(oversized item, draining, buffer overflow) and the RPC layer. -/
inductive PubError where
  | topicStopped
  | orderingNotEnabled
  | publishingPaused (orderingKey : String)
  | flowErr (code : Nat)
  | addErr (code : Nat)
  | rpcErr (code : Nat)
  deriving DecidableEq, Repr

/-- State of one `PublishResult` handle: exactly one `SetPublishResult`
call resolves it with a message identifier or an error. -/
inductive ResultState where
  | pending
  | resolved (msgID : String) (err : Option PubError)
  deriving DecidableEq, Repr

/-- A caller-supplied message: payload bytes, attributes, optional
ordering key (empty string = unordered). -/
structure Message where
  data : List Nat
  attributes : List (String × String)
  orderingKey : String
  deriving DecidableEq, Repr

/-- The wire message built from a `Message` (the fields of
`pb.PubsubMessage` that the publisher fills in). -/
structure PubsubMessage where
  data : List Nat
  attributes : List (String × String)
  orderingKey : String
  deriving DecidableEq, Repr

/-- Conversion performed both in `Publish` (for the size computation) and in
`publishMessageBundle` (building the request). -/
def toPubsubMessage (m : Message) : PubsubMessage :=
  ⟨m.data, m.attributes, m.orderingKey⟩

/-- Recursion on an explicit bound (structural, so the function reduces
definitionally): one byte per base-128 digit. -/
def varintLenAux (fuel n : Nat) : Nat :=
  match fuel with
  | 0 => 1
  | fuel + 1 => if n < 128 then 1 else 1 + varintLenAux fuel (n / 128)

/-- Number of bytes of the base-128 varint encoding of `n`.  The value
itself bounds the recursion depth (`n / 128 < n` for `n ≥ 128`, so the
bound is never exhausted). -/
def varintLen (n : Nat) : Nat := varintLenAux n n

/-- Modelled from the spec: wire size of a length-delimited protobuf field
with a single-byte tag — one tag byte, the varint of the length, and the
payload. -/
def lenFieldSize (len : Nat) : Nat := 1 + varintLen len + len

/-- Modelled from the spec: proto3 omits length-delimited fields that are
empty. -/
def optLenFieldSize (len : Nat) : Nat := if len = 0 then 0 else lenFieldSize len

/-- Modelled from the spec: wire size of one attributes map entry (a nested
message with a string key field and a string value field). -/
def mapEntrySize (k v : String) : Nat :=
  optLenFieldSize k.length + optLenFieldSize v.length

/-- Modelled from the spec: `proto.Size` of a `PubsubMessage` holding data,
attributes and ordering key — the "encoded wire representation" whose sizes
the pipeline sums.  (The exact protobuf constants do not matter for the
claims; only that every message has one fixed encoded size.) -/
def pubsubMessageSize (m : PubsubMessage) : Nat :=
  optLenFieldSize m.data.length
    + (m.attributes.map (fun kv => lenFieldSize (mapEntrySize kv.1 kv.2))).sum
    + optLenFieldSize m.orderingKey.length

/-- Maximum number of messages in a single publish request, as defined by
the service. -/
def MaxPublishRequestCount : Int := 1000

/-- Maximum size of a single publish request in bytes (`1e7` in the
source). -/
def MaxPublishRequestBytes : Int := 10000000

/-- `intSize` of the source on a 64-bit platform
(`32 << (^uint(0) >> 63) = 64`). -/
def intSize : Nat := 64

/-- `maxInt = 1<<(intSize-1) - 1` of the source. -/
def maxInt : Int := 2 ^ (intSize - 1) - 1

/-- Modelled from the spec: `calcFieldSizeString` — the encoded size of a
string field (topic name): tag byte, varint of the length, and the bytes. -/
def calcFieldSizeString (field : String) : Int :=
  1 + (field.length : Int) + (varintLen field.length : Int)

/-- Behavior at the flow-control limit (`FlowControlIgnore`,
`FlowControlBlock`, `FlowControlSignalError` in the source). -/
inductive LimitExceededBehavior where
  | ignore
  | block
  | signalError
  deriving DecidableEq, Repr

/-- Publisher flow control settings. -/
structure FlowControlSettings where
  maxOutstandingMessages : Int
  maxOutstandingBytes : Int
  limitExceededBehavior : LimitExceededBehavior
  deriving DecidableEq, Repr

/-- Settings controlling the bundling of published messages.  Durations
(`DelayThreshold`, `Timeout`) are in milliseconds. -/
structure PublishSettings where
  delayThreshold : Int
  countThreshold : Int
  byteThreshold : Int
  timeout : Int
  bufferedByteLimit : Int
  flowControlSettings : FlowControlSettings
  enableCompression : Bool
  compressionBytesThreshold : Int
  deriving DecidableEq, Repr

/-- `shouldCompress` of the source: compress when enabled and the batch
size strictly exceeds the threshold. -/
def PublishSettings.shouldCompress (ps : PublishSettings) (batchSize : Int) : Bool :=
  ps.enableCompression && decide (ps.compressionBytesThreshold < batchSize)

/-- `DefaultPublishSettings` of the source. -/
def DefaultPublishSettings : PublishSettings where
  delayThreshold := 10
  countThreshold := 100
  byteThreshold := 1000000
  timeout := 60000
  bufferedByteLimit := 10 * MaxPublishRequestBytes
  flowControlSettings :=
    { maxOutstandingMessages := 1000
      maxOutstandingBytes := -1
      limitExceededBehavior := .ignore }
  enableCompression := false
  compressionBytesThreshold := 240

/-- Modelled from the spec: the observable state of the publish scheduler —
the set of ordering keys currently paused after an error
(`keysWithErrors`), the items buffered for bundling (key and size), and the
configuration fields that `initBundler` sets on it. -/
structure SchedState where
  keysWithErrors : List String
  buffered : List (String × Int)
  delayThreshold : Int
  bundleCountThreshold : Int
  bundleByteThreshold : Int
  bufferedByteLimit : Int
  bundleByteLimit : Int
  deriving DecidableEq, Repr

/-- Modelled from the spec: a key is paused when it is recorded in
`keysWithErrors`. -/
def SchedState.isPaused (s : SchedState) (key : String) : Bool :=
  s.keysWithErrors.contains key

/-- Modelled from the spec: `Pause` records the key as errored; unordered
messages (empty key) are never paused. -/
def SchedState.pause (s : SchedState) (key : String) : SchedState :=
  if key = "" then s else { s with keysWithErrors := key :: s.keysWithErrors }

/-- Modelled from the spec: `Resume` removes the key from the paused set. -/
def SchedState.resume (s : SchedState) (key : String) : SchedState :=
  { s with keysWithErrors := s.keysWithErrors.filter (fun k => decide (k ≠ key)) }

/-- Modelled from the spec: `Add` fails immediately with the
publishing-paused error when the key is paused, without buffering the item;
otherwise it may fail with an environment-chosen error (`oracle`: oversized
item, draining, buffer overflow), or buffers the item. -/
def SchedState.add (s : SchedState) (key : String) (size : Int)
    (oracle : Option PubError) : SchedState × Option PubError :=
  if s.isPaused key then (s, some (.publishingPaused key))
  else
    match oracle with
    | some e => (s, some e)
    | none => ({ s with buffered := s.buffered ++ [(key, size)] }, none)

/-- Modelled from the spec: the flow controller, observed through the
sequence of `acquire` reservations that succeeded and the sequence of
`release` calls, each with its byte size.  The admission decision of
`acquire` (policy dependent: block, error, ignore) is supplied by the
environment at each `publish` call. -/
structure FlowState where
  acquireLog : List Int
  releaseLog : List Int
  deriving DecidableEq, Repr

/-- Modelled from the spec: a successful `acquire` reserves capacity for
one message of the given size. -/
def FlowState.acquire (f : FlowState) (size : Int) : FlowState :=
  { f with acquireLog := f.acquireLog ++ [size] }

/-- Modelled from the spec: `release` returns capacity for one message of
the given size. -/
def FlowState.release (f : FlowState) (size : Int) : FlowState :=
  { f with releaseLog := f.releaseLog ++ [size] }

/-- The publisher: topic name, settings, stopped flag, lazily created
scheduler (`none` until `initBundler` runs), ordering flag, and flow
controller. -/
structure Publisher where
  name : String
  settings : PublishSettings
  stopped : Bool
  scheduler : Option SchedState
  enableMessageOrdering : Bool
  fc : FlowState
  deriving DecidableEq, Repr

/-- `initBundler` of the source: a no-op when stopped or already
initialized; otherwise installs the scheduler with the configured
thresholds.  `BundleCountThreshold` is capped at `MaxPublishRequestCount`;
when `MaxOutstandingBytes > 0` the deprecated `BufferedByteLimit` is
disabled by setting it to `maxInt`; `BundleByteLimit` reserves the encoded
topic-name field plus 5 bytes of framing overhead below
`MaxPublishRequestBytes`.  (The goroutine worker count and the flow
controller limits configured here concern concurrency and are not part of
the state the claims observe.) -/
def Publisher.initBundler (t : Publisher) : Publisher :=
  if t.stopped || t.scheduler.isSome then t
  else
    let settings :=
      if t.settings.flowControlSettings.maxOutstandingBytes > 0 then
        { t.settings with bufferedByteLimit := maxInt }
      else t.settings
    let countThreshold :=
      if settings.countThreshold > MaxPublishRequestCount then
        MaxPublishRequestCount
      else settings.countThreshold
    let bufferedByteLimit :=
      if settings.bufferedByteLimit > 0 then settings.bufferedByteLimit
      else DefaultPublishSettings.bufferedByteLimit
    { t with
      settings := settings
      scheduler := some
        { keysWithErrors := []
          buffered := []
          delayThreshold := settings.delayThreshold
          bundleCountThreshold := countThreshold
          bundleByteThreshold := settings.byteThreshold
          bufferedByteLimit := bufferedByteLimit
          bundleByteLimit :=
            MaxPublishRequestBytes - calcFieldSizeString t.name - 5 } }

/-- Outcome of one `Publish` call: the updated publisher and the state of
the returned handle (`pending` when the message was admitted and awaits its
bundle's dispatch). -/
structure PublishOutcome where
  pub : Publisher
  result : ResultState
  deriving DecidableEq, Repr

/-- `Publish` of the source.  `acqRes` is the outcome of
`flowController.acquire` (`none` = capacity reserved) and `addOracle` the
environment-chosen failure of `scheduler.Add` beyond the paused-key check
(`none` = no such failure), both supplied by the environment since those
components' decision procedures are outside the given sources.  The order
of checks follows the source: ordering violation, lazy `initBundler`,
stopped flag, flow-control acquire (pausing the key on failure), scheduler
add (pausing the key on failure). -/
def Publisher.publish (t : Publisher) (msg : Message)
    (acqRes : Option PubError) (addOracle : Option PubError) : PublishOutcome :=
  if !t.enableMessageOrdering && decide (msg.orderingKey ≠ "") then
    ⟨t, .resolved "" (some .orderingNotEnabled)⟩
  else
    let msgSize : Int := (pubsubMessageSize (toPubsubMessage msg) : Int)
    let t := t.initBundler
    if t.stopped then ⟨t, .resolved "" (some .topicStopped)⟩
    else
      match t.scheduler with
      | none =>
        -- unreachable: initBundler installs a scheduler when not stopped
        ⟨t, .pending⟩
      | some s =>
        match acqRes with
        | some e =>
          ⟨{ t with scheduler := some (s.pause msg.orderingKey) },
            .resolved "" (some e)⟩
        | none =>
          let t := { t with fc := t.fc.acquire msgSize }
          match s.add msg.orderingKey msgSize addOracle with
          | (s2, some e) =>
            ⟨{ t with scheduler := some (s2.pause msg.orderingKey) },
              .resolved "" (some e)⟩
          | (s2, none) => ⟨{ t with scheduler := some s2 }, .pending⟩

/-- `Stop` of the source: flips the stopped flag; the returned Boolean
records whether `FlushAndStop` was invoked (false when the call was a
no-op because the publisher was already stopped or never initialized). -/
def Publisher.stop (t : Publisher) : Publisher × Bool :=
  let noop := t.stopped || t.scheduler.isNone
  ({ t with stopped := true }, !noop)

/-- `ResumePublish` of the source: a no-op when the scheduler was never
initialized, otherwise resumes the ordering key. -/
def Publisher.resumePublish (t : Publisher) (orderingKey : String) : Publisher :=
  match t.scheduler with
  | none => t
  | some s => { t with scheduler := some (s.resume orderingKey) }

/-- One element of a dispatched bundle: the message, its `PublishResult`
handle (identified positionally in the outcome), and the size computed at
admission time. -/
structure BundledMessage where
  msg : Message
  size : Int
  deriving DecidableEq, Repr

/-- The publish RPC request: topic name and the wire messages. -/
structure PublishRequest where
  topic : String
  messages : List PubsubMessage
  deriving DecidableEq, Repr

/-- The request `publishMessageBundle` builds for a bundle. -/
def bundleRequest (t : Publisher) (bms : List BundledMessage) : PublishRequest :=
  { topic := t.name, messages := bms.map (fun bm => toPubsubMessage bm.msg) }

/-- `batchSize` of `publishMessageBundle`: the sum of the encoded wire
sizes of the bundle's messages. -/
def bundleBatchSize (bms : List BundledMessage) : Int :=
  ((bms.map (fun bm => pubsubMessageSize (toPubsubMessage bm.msg))).sum : Nat)

/-- The `orderingKey` local of `publishMessageBundle`: assigned on every
loop iteration, so it ends as the last message's key (`""` for an empty
bundle). -/
def bundleOrderingKey (bms : List BundledMessage) : String :=
  bms.foldl (fun _ bm => bm.msg.orderingKey) ""

/-- Result of the send phase of `publishMessageBundle`: the identifiers on
success, the error on failure, and — when an RPC was actually issued — the
request together with whether transport compression was requested for it. -/
structure RPCOutcome where
  ids : Option (List String)
  err : Option PubError
  sent : Option (PublishRequest × Bool)
  deriving Repr

/-- The send phase of `publishMessageBundle`: short-circuit with the
publishing-paused error when the bundle's ordering key is paused (without
issuing the RPC); otherwise issue the RPC, requesting compression for this
request exactly when `shouldCompress` says so for this batch size. -/
def bundleRPC (t : Publisher) (sched : SchedState)
    (rpc : PublishRequest → Except PubError (List String))
    (bms : List BundledMessage) : RPCOutcome :=
  let orderingKey := bundleOrderingKey bms
  if decide (orderingKey ≠ "") && sched.isPaused orderingKey then
    ⟨none, some (.publishingPaused orderingKey), none⟩
  else
    let req := bundleRequest t bms
    let compress := t.settings.shouldCompress (bundleBatchSize bms)
    match rpc req with
    | .ok ids => ⟨some ids, none, some (req, compress)⟩
    | .error e => ⟨none, some e, some (req, compress)⟩

/-- Outcome of one `publishMessageBundle` step: updated scheduler state,
updated flow controller, the resolved handle of each message of the bundle
(positionally), the issued request with its compression flag (if any), and
the step's terminal error (if any). -/
structure BundleOutcome where
  sched : SchedState
  fc : FlowState
  results : List ResultState
  sent : Option (PublishRequest × Bool)
  err : Option PubError
  deriving Repr

/-- `publishMessageBundle` of the source: run the send phase; on any error
pause the bundle's ordering key; then, for every message of the bundle,
release its size from the flow controller and resolve its handle — with the
step's error on failure, or positionally with the i-th identifier of the
response on success (the source indexes `res.MessageIds[i]`; the embedding
totalizes the out-of-range case with `""`, which the RPC contract — one
identifier per message — excludes). -/
def Publisher.publishMessageBundle (t : Publisher) (sched : SchedState)
    (fc : FlowState) (rpc : PublishRequest → Except PubError (List String))
    (bms : List BundledMessage) : BundleOutcome :=
  let o := bundleRPC t sched rpc bms
  { sched := if o.err.isSome then sched.pause (bundleOrderingKey bms) else sched
    fc := bms.foldl (fun f bm => f.release bm.size) fc
    results :=
      match o.err with
      | some e => bms.map (fun _ => ResultState.resolved "" (some e))
      | none =>
        (List.range bms.length).map
          (fun i => ResultState.resolved ((o.ids.getD []).getD i "") none)
    sent := o.sent
    err := o.err }

/-- One admission attempt against the scheduler: key, size, and the
environment-chosen non-paused failure mode. -/
structure AddOp where
  key : String
  size : Int
  oracle : Option PubError
  deriving DecidableEq, Repr

/-- A sequence of `Add` calls threaded through the scheduler state,
collecting each call's outcome. -/
def SchedState.addSeq (s : SchedState) (ops : List AddOp) :
    SchedState × List (Option PubError) :=
  match ops with
  | [] => (s, [])
  | op :: rest =>
    let r := s.add op.key op.size op.oracle
    let r2 := r.1.addSeq rest
    (r2.1, r.2 :: r2.2)

/-! ## Helper lemmas -/

theorem foldl_release_releaseLog (bms : List BundledMessage) (fc : FlowState) :
    (bms.foldl (fun f bm => f.release bm.size) fc).releaseLog
      = fc.releaseLog ++ bms.map (fun bm => bm.size) := by
  induction bms generalizing fc with
  | nil => simp
  | cons bm rest ih =>
    rw [List.foldl_cons, ih]
    simp [FlowState.release]

theorem foldl_release_acquireLog (bms : List BundledMessage) (fc : FlowState) :
    (bms.foldl (fun f bm => f.release bm.size) fc).acquireLog = fc.acquireLog := by
  induction bms generalizing fc with
  | nil => rfl
  | cons bm rest ih =>
    rw [List.foldl_cons, ih]
    rfl

theorem isPaused_pause_self (s : SchedState) (key : String) (h : key ≠ "") :
    (s.pause key).isPaused key = true := by
  simp [SchedState.pause, SchedState.isPaused, h]

theorem add_keysWithErrors (s : SchedState) (key : String) (size : Int)
    (oracle : Option PubError) :
    ((s.add key size oracle).1).keysWithErrors = s.keysWithErrors := by
  unfold SchedState.add
  split
  · rfl
  · cases oracle <;> rfl

theorem addSeq_isPaused (s : SchedState) (key : String) (ops : List AddOp) :
    ((s.addSeq ops).1).isPaused key = s.isPaused key := by
  induction ops generalizing s with
  | nil => rfl
  | cons op rest ih =>
    show ((((s.add op.key op.size op.oracle).1).addSeq rest).1).isPaused key = _
    rw [ih]
    simp [SchedState.isPaused, add_keysWithErrors]

theorem contains_filter_ne (l : List String) (key : String) :
    (l.filter (fun k => decide (k ≠ key))).contains key = false := by
  induction l with
  | nil => rfl
  | cons a rest ih =>
    by_cases h : a = key
    · simp [List.filter_cons, h, ih]
    · have hka : ¬key = a := fun hh => h hh.symm
      simp [List.filter_cons, h, ih, hka]

theorem initBundler_stopped (t : Publisher) : (t.initBundler).stopped = t.stopped := by
  unfold Publisher.initBundler
  split <;> rfl

theorem initBundler_scheduler_isSome (t : Publisher) (h : t.stopped = false) :
    ((t.initBundler).scheduler).isSome = true := by
  unfold Publisher.initBundler
  split
  · rename_i hcond
    rw [h] at hcond
    simpa using hcond
  · rfl

theorem range_map_getD_resolved (ids : List String) :
    (List.range ids.length).map
        (fun i => ResultState.resolved (ids.getD i "") none)
      = ids.map (fun id => ResultState.resolved id none) := by
  induction ids with
  | nil => rfl
  | cons a rest ih =>
    rw [List.length_cons, List.range_succ_eq_map, List.map_cons, List.map_map]
    simp only [Function.comp_def, List.getD_cons_zero, List.getD_cons_succ]
    rw [ih, List.map_cons]

/-! ## Concrete fixtures used by the witness theorems -/

/-- A fresh publisher with ordering enabled. -/
def pubA : Publisher where
  name := "projects/p/topics/t"
  settings := DefaultPublishSettings
  stopped := false
  scheduler := none
  enableMessageOrdering := true
  fc := ⟨[], []⟩

/-- A publisher with compression enabled and a zero threshold. -/
def pubC : Publisher where
  name := "projects/p/topics/t"
  settings :=
    { DefaultPublishSettings with
        enableCompression := true
        compressionBytesThreshold := 0 }
  stopped := false
  scheduler := none
  enableMessageOrdering := true
  fc := ⟨[], []⟩

/-- An initialized scheduler state with nothing paused. -/
def schedA : SchedState where
  keysWithErrors := []
  buffered := []
  delayThreshold := 10
  bundleCountThreshold := 100
  bundleByteThreshold := 1000000
  bufferedByteLimit := 100000000
  bundleByteLimit := 9999967

/-- A two-message bundle on ordering key `"k"`. -/
def bmsA : List BundledMessage :=
  [⟨⟨[1, 2], [], "k"⟩, 5⟩, ⟨⟨[3], [], "k"⟩, 4⟩]

/-- An RPC that always fails. -/
def rpcFail : PublishRequest → Except PubError (List String) :=
  fun _ => .error (.rpcErr 7)

/-- An RPC that returns two identifiers. -/
def rpcOk : PublishRequest → Except PubError (List String) :=
  fun _ => .ok ["id1", "id2"]

/-! ## Claim theorems -/

/-- C1: for every dispatched bundle whose RPC (or pre-send paused check)
terminates with an error, `publishMessageBundle` resolves every handle in
the bundle to that same error, and pauses the bundle's ordering key, so a
non-empty key is in the paused state afterwards. -/
theorem publishMessageBundle_error_resolves_all_and_pauses (t : Publisher)
    (sched : SchedState) (fc : FlowState)
    (rpc : PublishRequest → Except PubError (List String))
    (bms : List BundledMessage) (e : PubError)
    (h : (t.publishMessageBundle sched fc rpc bms).err = some e) :
    (t.publishMessageBundle sched fc rpc bms).results
        = bms.map (fun _ => ResultState.resolved "" (some e))
      ∧ (t.publishMessageBundle sched fc rpc bms).sched
          = sched.pause (bundleOrderingKey bms)
      ∧ (bundleOrderingKey bms ≠ "" →
          ((t.publishMessageBundle sched fc rpc bms).sched).isPaused
            (bundleOrderingKey bms) = true) := by
  have he : (bundleRPC t sched rpc bms).err = some e := h
  refine ⟨?_, ?_, ?_⟩
  · simp [Publisher.publishMessageBundle, he]
  · simp [Publisher.publishMessageBundle, he]
  · intro hk
    simp only [Publisher.publishMessageBundle, he, Option.isSome_some, if_true]
    exact isPaused_pause_self sched _ hk

/-- C1 witness: a concrete failing RPC on a two-message bundle with
ordering key `"k"`. -/
theorem publishMessageBundle_error_witness :
    (pubA.publishMessageBundle schedA ⟨[], []⟩ rpcFail bmsA).results
        = [ResultState.resolved "" (some (.rpcErr 7)),
            ResultState.resolved "" (some (.rpcErr 7))]
      ∧ ((pubA.publishMessageBundle schedA ⟨[], []⟩ rpcFail bmsA).sched).isPaused
          "k" = true := by
  have h := publishMessageBundle_error_resolves_all_and_pauses pubA schedA
    ⟨[], []⟩ rpcFail bmsA (.rpcErr 7) rfl
  exact ⟨by rw [h.1]; rfl, h.2.2 (by decide)⟩

/-- C2: for every dispatched bundle, the flow controller's `release` is
called exactly once per message, with that message's admission-time size,
before the pipeline step returns — in the success branch and in every
error branch alike (the release log grows by exactly the bundle's sizes
for every RPC outcome); the bundle step never touches the acquire log. -/
theorem publishMessageBundle_releases_each_message_once (t : Publisher)
    (sched : SchedState) (fc : FlowState)
    (rpc : PublishRequest → Except PubError (List String))
    (bms : List BundledMessage) :
    (t.publishMessageBundle sched fc rpc bms).fc.releaseLog
        = fc.releaseLog ++ bms.map (fun bm => bm.size)
      ∧ (t.publishMessageBundle sched fc rpc bms).fc.acquireLog
        = fc.acquireLog := by
  exact ⟨foldl_release_releaseLog bms fc, foldl_release_acquireLog bms fc⟩

/-- C4: for every bundle whose publish RPC succeeds with one identifier per
message (the RPC contract), the i-th handle of the bundle is resolved to
success with the i-th identifier and no error — so identifiers are observed
in submission order. -/
theorem publishMessageBundle_success_ids_in_order (t : Publisher)
    (sched : SchedState) (fc : FlowState)
    (rpc : PublishRequest → Except PubError (List String))
    (bms : List BundledMessage) (ids : List String)
    (hnp : ¬(bundleOrderingKey bms ≠ ""
        ∧ sched.isPaused (bundleOrderingKey bms) = true))
    (hrpc : rpc (bundleRequest t bms) = .ok ids)
    (hlen : ids.length = bms.length) :
    (t.publishMessageBundle sched fc rpc bms).err = none
      ∧ (t.publishMessageBundle sched fc rpc bms).results
          = ids.map (fun id => ResultState.resolved id none) := by
  have hcond : (decide (bundleOrderingKey bms ≠ "")
      && sched.isPaused (bundleOrderingKey bms)) = false := by
    by_cases hk : bundleOrderingKey bms = ""
    · simp [hk]
    · have hb : sched.isPaused (bundleOrderingKey bms) = false := by
        cases hb : sched.isPaused (bundleOrderingKey bms)
        · rfl
        · exact absurd ⟨hk, hb⟩ hnp
      simp [hb]
  have ho : bundleRPC t sched rpc bms
      = ⟨some ids, none,
          some (bundleRequest t bms,
            t.settings.shouldCompress (bundleBatchSize bms))⟩ := by
    simp only [bundleRPC, hcond, Bool.false_eq_true, if_false, hrpc]
  constructor
  · simp [Publisher.publishMessageBundle, ho]
  · simp only [Publisher.publishMessageBundle, ho]
    rw [← hlen]
    exact range_map_getD_resolved ids

/-- C4 witness: a concrete successful RPC returning two identifiers for the
two-message bundle. -/
theorem publishMessageBundle_success_witness :
    (pubA.publishMessageBundle schedA ⟨[], []⟩ rpcOk bmsA).err = none
      ∧ (pubA.publishMessageBundle schedA ⟨[], []⟩ rpcOk bmsA).results
          = [ResultState.resolved "id1" none, ResultState.resolved "id2" none] := by
  have h := publishMessageBundle_success_ids_in_order pubA schedA ⟨[], []⟩
    rpcOk bmsA ["id1", "id2"] (by decide) rfl rfl
  exact ⟨h.1, by rw [h.2]; rfl⟩

/-- C7: for every dispatched bundle that issues an RPC, transport
compression is requested for that request iff `EnableCompression` is true
and the summed encoded wire size of the bundle's messages strictly exceeds
`CompressionBytesThreshold`; the flag is computed per request from this
bundle alone. -/
theorem publishMessageBundle_compression_iff (t : Publisher)
    (sched : SchedState) (fc : FlowState)
    (rpc : PublishRequest → Except PubError (List String))
    (bms : List BundledMessage) (req : PublishRequest) (c : Bool)
    (h : (t.publishMessageBundle sched fc rpc bms).sent = some (req, c)) :
    req = bundleRequest t bms
      ∧ (c = true ↔ (t.settings.enableCompression = true
          ∧ t.settings.compressionBytesThreshold < bundleBatchSize bms)) := by
  have hs : (bundleRPC t sched rpc bms).sent = some (req, c) := h
  simp only [bundleRPC] at hs
  split at hs
  · simp at hs
  · cases hrpc : rpc (bundleRequest t bms) <;>
      rw [hrpc] at hs <;>
      simp only [RPCOutcome.mk.injEq, Option.some.injEq, Prod.mk.injEq] at hs <;>
      obtain ⟨hreq, hc⟩ := hs <;>
      exact ⟨hreq.symm,
        by rw [← hc]; simp [PublishSettings.shouldCompress]⟩

/-- C7 witness: with compression enabled and threshold 0, the concrete
bundle's request is sent with compression requested. -/
theorem publishMessageBundle_compression_witness :
    bundleRequest pubC bmsA = bundleRequest pubC bmsA
      ∧ (true = true ↔ (pubC.settings.enableCompression = true
          ∧ pubC.settings.compressionBytesThreshold < bundleBatchSize bmsA)) :=
  publishMessageBundle_compression_iff pubC schedA ⟨[], []⟩ rpcFail bmsA
    (bundleRequest pubC bmsA) true rfl

/-- C6: for every `Publish` call on a publisher with
`EnableMessageOrdering = false` and a message with a non-empty
`OrderingKey`, the returned handle is already resolved with the
ordering-violated error and the publisher is entirely untouched — the
message is never admitted to any bundle, no capacity is acquired, and no
scheduler state is created or changed. -/
theorem publish_ordering_disabled_rejected (t : Publisher) (msg : Message)
    (acqRes addOracle : Option PubError)
    (hord : t.enableMessageOrdering = false) (hkey : msg.orderingKey ≠ "") :
    t.publish msg acqRes addOracle
      = ⟨t, .resolved "" (some .orderingNotEnabled)⟩ := by
  simp [Publisher.publish, hord, hkey]

/-- C6 witness: a concrete publisher with ordering disabled rejects a keyed
message synchronously. -/
theorem publish_ordering_disabled_witness :
    ({ pubA with enableMessageOrdering := false }).publish ⟨[1], [], "k"⟩ none none
      = ⟨{ pubA with enableMessageOrdering := false },
          .resolved "" (some .orderingNotEnabled)⟩ :=
  publish_ordering_disabled_rejected { pubA with enableMessageOrdering := false }
    ⟨[1], [], "k"⟩ none none rfl (by decide)

/-- C10: the ordering-violated check precedes all other admission checks —
even on a stopped publisher, a keyed message with ordering disabled
resolves to the ordering-violated error (not the stopped error), and
neither the flow controller nor the scheduler is touched. -/
theorem publish_ordering_check_precedes_stopped (t : Publisher) (msg : Message)
    (acqRes addOracle : Option PubError)
    (_hstop : t.stopped = true)
    (hord : t.enableMessageOrdering = false) (hkey : msg.orderingKey ≠ "") :
    (t.publish msg acqRes addOracle).result
        = .resolved "" (some .orderingNotEnabled)
      ∧ (t.publish msg acqRes addOracle).result
        ≠ .resolved "" (some .topicStopped)
      ∧ (t.publish msg acqRes addOracle).pub.fc = t.fc
      ∧ (t.publish msg acqRes addOracle).pub.scheduler = t.scheduler := by
  simp [Publisher.publish, hord, hkey]

/-- C10 witness: a concrete stopped publisher with ordering disabled. -/
theorem publish_ordering_precedes_stopped_witness :
    (({ pubA with
          enableMessageOrdering := false
          stopped := true }).publish ⟨[1], [], "k"⟩ none none).result
        = .resolved "" (some .orderingNotEnabled)
      ∧ (({ pubA with
            enableMessageOrdering := false
            stopped := true }).publish ⟨[1], [], "k"⟩ none none).result
        ≠ .resolved "" (some .topicStopped) := by
  have h := publish_ordering_check_precedes_stopped
    { pubA with
        enableMessageOrdering := false
        stopped := true }
    ⟨[1], [], "k"⟩ none none rfl rfl (by decide)
  exact ⟨h.1, h.2.1⟩

/-- C5 counterexample: as stated, the claim fails — after `Stop`, a
`Publish` of a keyed message on a publisher with ordering disabled resolves
to the ordering-violated error, not `ErrTopicStopped`. -/
theorem publish_after_stop_counterexample :
    (({ name := "projects/p/topics/t"
        settings := DefaultPublishSettings
        stopped := true
        scheduler := none
        enableMessageOrdering := false
        fc := ⟨[], []⟩ } : Publisher).publish ⟨[1], [], "k"⟩ none none).result
        = .resolved "" (some .orderingNotEnabled)
      ∧ (({ name := "projects/p/topics/t"
            settings := DefaultPublishSettings
            stopped := true
            scheduler := none
            enableMessageOrdering := false
            fc := ⟨[], []⟩ } : Publisher).publish ⟨[1], [], "k"⟩ none none).result
        ≠ .resolved "" (some .topicStopped) := by
  constructor
  · rfl
  · decide

/-- C5 amended: after `Stop`, every subsequent `Publish` call that passes
the ordering check (ordering enabled, or an unordered message) returns a
handle already resolved with `ErrTopicStopped` and leaves the publisher
unchanged (nothing admitted); a keyed message with ordering disabled
instead gets the ordering-violated error.  Every subsequent `Stop` call is
a no-op. -/
theorem publish_after_stop_amended (t : Publisher) (msg : Message)
    (acqRes addOracle : Option PubError)
    (hstop : t.stopped = true)
    (hord : t.enableMessageOrdering = true ∨ msg.orderingKey = "") :
    t.publish msg acqRes addOracle = ⟨t, .resolved "" (some .topicStopped)⟩
      ∧ t.stop = (t, false) := by
  have hcond : (!t.enableMessageOrdering && decide (msg.orderingKey ≠ "")) = false := by
    rcases hord with h | h <;> simp [h]
  have hinit : t.initBundler = t := by
    unfold Publisher.initBundler
    simp [hstop]
  constructor
  · simp only [Publisher.publish, hcond, Bool.false_eq_true, if_false, hinit, hstop,
      if_true]
  · unfold Publisher.stop
    cases t with
    | mk nm st sp sc or f =>
      simp only at hstop
      subst hstop
      simp

/-- C5 witness: a concrete stopped publisher rejects an unordered message
with `ErrTopicStopped`, and a second `Stop` is a no-op. -/
theorem publish_after_stop_amended_witness :
    ({ pubA with stopped := true }).publish ⟨[1], [], ""⟩ none none
        = ⟨{ pubA with stopped := true }, .resolved "" (some .topicStopped)⟩
      ∧ ({ pubA with stopped := true }).stop
        = ({ pubA with stopped := true }, false) :=
  publish_after_stop_amended { pubA with stopped := true } ⟨[1], [], ""⟩
    none none rfl (Or.inr rfl)

/-- C9: admission-time failures also pause the ordering key — on a running
publisher with ordering enabled, whenever a `Publish` of a keyed message
returns an already-resolved error handle (which under these hypotheses can
only come from `flowController.acquire` or `scheduler.Add` failing), the
message's ordering key is paused in the resulting scheduler state. -/
theorem publish_admission_failure_pauses (t : Publisher) (msg : Message)
    (acqRes addOracle : Option PubError) (e : PubError)
    (hord : t.enableMessageOrdering = true) (hstop : t.stopped = false)
    (hkey : msg.orderingKey ≠ "")
    (hres : (t.publish msg acqRes addOracle).result = .resolved "" (some e)) :
    ∃ s, (t.publish msg acqRes addOracle).pub.scheduler = some s
      ∧ s.isPaused msg.orderingKey = true := by
  have hcond : (!t.enableMessageOrdering && decide (msg.orderingKey ≠ "")) = false := by
    simp [hord]
  have hst : (t.initBundler).stopped = false := by
    rw [initBundler_stopped]
    exact hstop
  obtain ⟨s0, hs0⟩ := Option.isSome_iff_exists.mp (initBundler_scheduler_isSome t hstop)
  unfold Publisher.publish at hres ⊢
  simp only [hcond, Bool.false_eq_true, if_false, hst, hs0] at hres ⊢
  cases acqRes with
  | some e2 =>
    exact ⟨s0.pause msg.orderingKey, rfl, isPaused_pause_self s0 _ hkey⟩
  | none =>
    rcases h2 : s0.add msg.orderingKey
        ((pubsubMessageSize (toPubsubMessage msg) : Nat) : Int) addOracle
      with ⟨s2, e2⟩
    cases e2 with
    | some e3 =>
      exact ⟨s2.pause msg.orderingKey, rfl, isPaused_pause_self s2 _ hkey⟩
    | none =>
      rw [h2] at hres
      simp at hres

/-- C9 witness: a concrete flow-control failure on a running publisher
leaves the key `"k"` paused. -/
theorem publish_admission_failure_pauses_witness :
    ∃ s, ((pubA.publish ⟨[1], [], "k"⟩ (some (.flowErr 3)) none).pub.scheduler
        = some s)
      ∧ s.isPaused "k" = true :=
  publish_admission_failure_pauses pubA ⟨[1], [], "k"⟩ (some (.flowErr 3)) none
    (.flowErr 3) rfl rfl (by decide) rfl

/-- C8: `initBundler` sets the per-bundle byte limit to exactly
`MaxPublishRequestBytes` minus the encoded size of the topic-name field
minus 5 bytes of framing overhead, which is strictly smaller than
`MaxPublishRequestBytes` for every non-empty topic name. -/
theorem initBundler_bundle_byte_limit (t : Publisher)
    (hstop : t.stopped = false) (hsched : t.scheduler = none)
    (_hname : t.name ≠ "") :
    ∃ s, (t.initBundler).scheduler = some s
      ∧ s.bundleByteLimit
          = MaxPublishRequestBytes - calcFieldSizeString t.name - 5
      ∧ s.bundleByteLimit < MaxPublishRequestBytes := by
  unfold Publisher.initBundler
  simp only [hstop, hsched, Option.isSome_none, Bool.or_self, Bool.false_eq_true,
    if_false]
  refine ⟨_, rfl, rfl, ?_⟩
  show MaxPublishRequestBytes - calcFieldSizeString t.name - 5
      < MaxPublishRequestBytes
  unfold calcFieldSizeString MaxPublishRequestBytes
  omega

/-- C8 witness: the concrete fresh publisher. -/
theorem initBundler_bundle_byte_limit_witness :
    ∃ s, ((pubA.initBundler).scheduler = some s)
      ∧ s.bundleByteLimit
          = MaxPublishRequestBytes - calcFieldSizeString pubA.name - 5
      ∧ s.bundleByteLimit < MaxPublishRequestBytes :=
  initBundler_bundle_byte_limit pubA rfl rfl (by decide)

/-- C3: while an ordering key is paused, every admission for that key fails
immediately with the publishing-paused error and the item is not buffered
(the scheduler state is unchanged); this persists across any sequence of
subsequent admissions (for this or other keys), and only `Resume` for the
key clears the paused state.  No message is silently dropped: each rejected
admission returns the distinguished error. -/
theorem paused_add_fails_until_resume (s : SchedState) (key : String)
    (hp : s.isPaused key = true) :
    (∀ sz oracle, s.add key sz oracle = (s, some (.publishingPaused key)))
      ∧ (∀ ops : List AddOp, ((s.addSeq ops).1).isPaused key = true)
      ∧ (∀ ops sz oracle, ((s.addSeq ops).1).add key sz oracle
          = ((s.addSeq ops).1, some (.publishingPaused key)))
      ∧ (s.resume key).isPaused key = false := by
  refine ⟨?_, ?_, ?_, ?_⟩
  · intro sz oracle
    simp [SchedState.add, hp]
  · intro ops
    rw [addSeq_isPaused]
    exact hp
  · intro ops sz oracle
    have hp2 : ((s.addSeq ops).1).isPaused key = true := by
      rw [addSeq_isPaused]
      exact hp
    simp [SchedState.add, hp2]
  · simp [SchedState.resume, SchedState.isPaused, contains_filter_ne]

/-- C3 witness: a scheduler state with key `"k"` paused rejects a concrete
admission, stays paused across a sequence of admissions, and is cleared by
resume. -/
theorem paused_add_fails_until_resume_witness :
    ({ schedA with keysWithErrors := ["k"] }).add "k" 9 none
        = ({ schedA with keysWithErrors := ["k"] },
            some (.publishingPaused "k"))
      ∧ ((({ schedA with keysWithErrors := ["k"] }).addSeq
            [⟨"k", 9, none⟩, ⟨"other", 2, none⟩]).1).isPaused "k" = true
      ∧ (({ schedA with keysWithErrors := ["k"] }).resume "k").isPaused "k"
        = false := by
  have h := paused_add_fails_until_resume
    { schedA with keysWithErrors := ["k"] } "k" (by decide)
  exact ⟨h.1 9 none, h.2.1 [⟨"k", 9, none⟩, ⟨"other", 2, none⟩], h.2.2.2⟩

end PubsubSpec
